import Mathlib

/-!
Shallow embedding of `pkg/metadata/sandboxes.go` (virtlet): a transactional
metadata store for pod-sandbox records on top of a bolt-style key-value
store.  Top-level buckets are keyed by raw byte strings (modelled as
`List Char`); each sandbox lives in its own bucket named
`"sandboxes/" ++ id`, holding one payload slot under the key `"data"`.
The bolt transaction discipline is modelled by explicit state passing:
a `db.Update` whose body returns an error leaves the store as it was
(total rollback), otherwise the body's final store is committed.
-/

namespace Virtlet

/-- Modelled from the spec: `types.PodSandboxState` (the `types` package is
not part of the sources) — the enumerated sandbox lifecycle state. -/
inductive PodSandboxState where
  | ready
  | notReady
deriving DecidableEq, Repr

/-- Modelled from the spec: the `Config` field of `types.PodSandboxInfo`,
holding (among opaque fields) a label map `string → string`;
maps are modelled as association lists with lookup-by-first-key. -/
structure PodSandboxConfig where
  labels : List (String × String)
  extraConfig : Nat
deriving DecidableEq, Repr

/-- Modelled from the spec: `types.PodSandboxInfo` — the persisted record:
`PodID` (stamped from the storage key on read, not taken from the payload),
`State`, `Config`, and other payload fields that are opaque to this core
(collapsed into one `extra` field passed through verbatim). -/
structure PodSandboxInfo where
  podID : String
  state : PodSandboxState
  config : PodSandboxConfig
  extra : Nat
deriving DecidableEq, Repr

/-- Modelled from the spec: `types.PodSandboxFilter` — optional exact-ID
constraint (`""` = unset), optional exact-state constraint, and a
label-selector built from a field set (`fields.SelectorFromSet`). -/
structure PodSandboxFilter where
  id : String
  state : Option PodSandboxState
  labelSelector : List (String × String)
deriving DecidableEq, Repr

/-- Error values surfaced by the store operations.  Go errors are opaque
values compared by identity here: each distinct error site gets a
constructor; `userErr` stands for an arbitrary error produced by a
caller-supplied updater. -/
inductive Err where
  /-- `"Pod sandbox ID cannot be empty"` (InvalidArgument). -/
  | emptyID
  /-- `"pod sandbox %q does not exist"` from `getSandboxBucket` (NotFound). -/
  | notFound (id : String)
  /-- `"no data found for pod id %q"` from `filterPodSandboxMeta`. -/
  | noData (id : String)
  /-- a `json.Unmarshal` failure on stored bytes. -/
  | decodeError
  /-- an error returned by a caller-supplied updater, passed through. -/
  | userErr (n : Nat)
  /-- bolt `ErrBucketNotFound` from `tx.DeleteBucket`. -/
  | bucketNotFound
deriving DecidableEq, Repr

/-- Stored payload bytes, abstracted: either the JSON encoding of a record
or bytes that do not parse.  Modelled from the spec: the payload encoding
excludes the ID field (the ID is derived from the region name on read). -/
inductive Data where
  | enc (r : PodSandboxInfo)
  | corrupt (n : Nat)
deriving DecidableEq, Repr

/-- `json.Marshal` on a `*types.PodSandboxInfo`: total for this plain
struct type (no channels/functions/cycles), so no error case; the ID field
is not serialized into the payload. -/
def jsonMarshal (psi : PodSandboxInfo) : Data :=
  .enc { psi with podID := "" }

/-- `json.Unmarshal` of a stored payload into a `*types.PodSandboxInfo`. -/
def jsonUnmarshal : Data → Except Err PodSandboxInfo
  | .enc r => .ok r
  | .corrupt _ => .error .decodeError

/-- `sandboxKeyPrefix = []byte("sandboxes/")`. -/
def sandboxKeyPfx : List Char := "sandboxes/".data

/-- `sandboxDataBucket = []byte("data")`. -/
def sandboxDataBucket : List Char := "data".data

/-- `sandboxKey(sandboxID) = append(sandboxKeyPrefix, []byte(sandboxID)...)`. -/
def sandboxKey (sandboxID : String) : List Char :=
  sandboxKeyPfx ++ sandboxID.data

/-- A bolt bucket: a key-value map, modelled as an association list
(unique keys maintained by the operations below). -/
abbrev Bucket := List (List Char × Data)

/-- `bucket.Get(k)`: value stored under `k`, or `nil`. -/
def Bucket.get : Bucket → List Char → Option Data
  | [], _ => none
  | (k', v) :: b, k => if k' = k then some v else Bucket.get b k

/-- `bucket.Put(k, v)`: overwrite the entry for `k`, or add one. -/
def Bucket.put : Bucket → List Char → Data → Bucket
  | [], k, v => [(k, v)]
  | (k', v') :: b, k, v =>
    if k' = k then (k, v) :: b else (k', v') :: Bucket.put b k v

/-- The top level of the bolt database: named buckets. -/
abbrev Store := List (List Char × Bucket)

/-- `tx.Bucket(k)`: the bucket named `k`, or `nil`. -/
def Store.getBucket : Store → List Char → Option Bucket
  | [], _ => none
  | (k', b) :: s, k => if k' = k then some b else Store.getBucket s k

/-- `tx.CreateBucketIfNotExists(k)` (cannot fail for a non-empty key in a
writable transaction). -/
def Store.createBucketIfNotExists (s : Store) (k : List Char) : Store :=
  match s.getBucket k with
  | some _ => s
  | none => s ++ [(k, [])]

/-- Remove the bucket named `k`. -/
def eraseKey : Store → List Char → Store
  | [], _ => []
  | (k', b) :: s, k =>
    if k' = k then eraseKey s k else (k', b) :: eraseKey s k

/-- `tx.DeleteBucket(k)`: errors with `ErrBucketNotFound` when absent. -/
def Store.deleteBucket (s : Store) (k : List Char) : Except Err Store :=
  match s.getBucket k with
  | some _ => .ok (eraseKey s k)
  | none => .error .bucketNotFound

/-- Write back the contents of the bucket named `k` (a bolt bucket handle
is mutated in place; in the functional model the store is rebuilt). -/
def Store.setBucket : Store → List Char → Bucket → Store
  | [], _, _ => []
  | (k', b') :: s, k, b =>
    if k' = k then (k, b) :: Store.setBucket s k b
    else (k', b') :: Store.setBucket s k b

/-- `getSandboxBucket(tx, podID, create, optional)`.  With `create` it
ensures the bucket exists (returning the possibly-extended store);
otherwise an absent bucket is an error unless `optional`. -/
def getSandboxBucket (s : Store) (podID : String) (create optional : Bool) :
    Except Err (Option Bucket × Store) :=
  let key := sandboxKey podID
  if create then
    let s1 := s.createBucketIfNotExists key
    .ok (s1.getBucket key, s1)
  else
    match s.getBucket key with
    | none => if optional then .ok (none, s) else .error (.notFound podID)
    | some b => .ok (some b, s)

/-- `retrieveSandboxFromDB(bucket, &psi)`: read the `"data"` slot; an
absent slot leaves `psi` nil without error; present bytes are unmarshalled. -/
def retrieveSandboxFromDB (bucket : Bucket) : Except Err (Option PodSandboxInfo) :=
  match bucket.get sandboxDataBucket with
  | none => .ok none
  | some d =>
    match jsonUnmarshal d with
    | .error e => .error e
    | .ok r => .ok (some r)

/-- `saveSandboxToDB(bucket, psi)`: marshal and `Put` under `"data"`
(the marshal error branch is dead: `jsonMarshal` is total). -/
def saveSandboxToDB (bucket : Bucket) (psi : PodSandboxInfo) : Bucket :=
  bucket.put sandboxDataBucket (jsonMarshal psi)

/-- `podSandboxMeta.Retrieve()`: reject an empty bound ID, then inside a
read transaction locate the sandbox bucket (absent region is a hard
error), read the payload slot, and stamp `PodID` from the bound ID on a
non-nil result. -/
def Retrieve (s : Store) (id : String) : Except Err (Option PodSandboxInfo) :=
  if id = "" then .error .emptyID
  else
    match getSandboxBucket s id false false with
    | .error e => .error e
    | .ok (none, _) => .error (.notFound id) -- unreachable: optional is false
    | .ok (some bucket, _) =>
      match retrieveSandboxFromDB bucket with
      | .error e => .error e
      | .ok none => .ok none
      | .ok (some psi) => .ok (some { psi with podID := id })

/-- `podSandboxMeta.Save(updater)`: reject an empty bound ID, then run one
write transaction: ensure the region exists, read the current payload,
call the updater, and either roll back (on any error, surfacing it
unchanged), delete the whole region (updater returned nil), or overwrite
the payload slot.  The pair returned is (store after the call, error). -/
def Save (s : Store) (id : String)
    (updater : Option PodSandboxInfo → Option PodSandboxInfo × Option Err) :
    Store × Option Err :=
  if id = "" then (s, some .emptyID)
  else
    let key := sandboxKey id
    let body : Except Err Store :=
      match getSandboxBucket s id true false with
      | .error e => .error e
      | .ok (none, _) => .error (.notFound id) -- unreachable: create is true
      | .ok (some bucket, s1) =>
        match retrieveSandboxFromDB bucket with
        | .error e => .error e
        | .ok current =>
          match updater current with
          | (_, some e) => .error e
          | (newData, none) =>
            match newData with
            | none => s1.deleteBucket key
            | some nd => .ok (s1.setBucket key (saveSandboxToDB bucket nd))
    match body with
    | .error e => (s, some e) -- transaction rolled back
    | .ok s2 => (s2, none)

/-- `fields.SelectorFromSet(set).Matches(fields.Set(labels))`: every
key-value pair of the selector set must appear in the label map (an empty
selector set matches everything). -/
def selectorMatches (sel labels : List (String × String)) : Bool :=
  sel.all fun p =>
    match labels.find? (fun q => q.1 == p.1) with
    | some q => q.2 == p.2
    | none => false

/-- `filterPodSandboxMeta(psm, filter)`: nil filter always matches; a set
ID constraint short-circuits before any read; otherwise `Retrieve` runs,
a nil result is a data-inconsistency error, and the state and
label-selector checks run in order. -/
def filterPodSandboxMeta (s : Store) (id : String)
    (filter : Option PodSandboxFilter) : Except Err Bool :=
  match filter with
  | none => .ok true
  | some f =>
    if f.id ≠ "" ∧ id ≠ f.id then .ok false
    else
      match Retrieve s id with
      | .error e => .error e
      | .ok none => .error (.noData id)
      | .ok (some psi) =>
        let stateMismatch : Bool :=
          match f.state with
          | some st => psi.state ≠ st
          | none => false
        if stateMismatch then .ok false
        else if selectorMatches f.labelSelector psi.config.labels then .ok true
        else .ok false

/-- Lexicographic byte order on keys (`bytes.Compare`), under which the
bolt cursor yields keys. -/
def keyLe : List Char → List Char → Bool
  | [], _ => true
  | _ :: _, [] => false
  | a :: as, b :: bs => if a = b then keyLe as bs else decide (a < b)

/-- Insert a key into a `keyLe`-sorted list. -/
def insertKey (k : List Char) : List (List Char) → List (List Char)
  | [] => [k]
  | x :: xs => if keyLe k x then k :: x :: xs else x :: insertKey k xs

/-- Sort keys into cursor order. -/
def sortKeys : List (List Char) → List (List Char)
  | [] => []
  | x :: xs => insertKey x (sortKeys xs)

/-- `bytes.HasPrefix(k, sandboxKeyPrefix)`. -/
def hasSandboxKeyPfx (k : List Char) : Bool :=
  k.take sandboxKeyPfx.length = sandboxKeyPfx

/-- `string(k[len(sandboxKeyPrefix):])`. -/
def stripSandboxKeyPfx (k : List Char) : String :=
  String.mk (k.drop sandboxKeyPfx.length)

/-- The keys visited by `c.Seek(sandboxKeyPrefix); ...; c.Next()`: the
cursor walks the whole key space in sorted order, and the loop keeps
exactly the contiguous run of keys carrying the prefix. -/
def scanKeys (s : Store) : List (List Char) :=
  (sortKeys (s.map (·.1))).filter hasSandboxKeyPfx

/-- The loop body of `ListPodSandboxes` over the scanned keys: evaluate
the filter per key, abort on the first error, accumulate matching IDs. -/
def listScan (s : Store) (filter : Option PodSandboxFilter) :
    List (List Char) → Except Err (List String)
  | [] => .ok []
  | k :: ks =>
    let id := stripSandboxKeyPfx k
    match filterPodSandboxMeta s id filter with
    | .error e => .error e
    | .ok true =>
      match listScan s filter ks with
      | .error e => .error e
      | .ok rest => .ok (id :: rest)
    | .ok false => listScan s filter ks

/-- `boltClient.ListPodSandboxes(filter)`: one read transaction, a
prefix-bounded cursor scan; an error from any predicate evaluation aborts
the scan and the caller gets `(nil, err)`; otherwise the matching
accessors (identified by their bound IDs) in key order. -/
def ListPodSandboxes (s : Store) (filter : Option PodSandboxFilter) :
    Except Err (List String) :=
  listScan s filter (scanKeys s)

/-- All sandbox IDs present in the store, in scan order. -/
def sandboxIDs (s : Store) : List String :=
  (scanKeys s).map stripSandboxKeyPfx

/-- The current payload for `i` decodes (region absent, slot absent, or
slot holding well-formed bytes): exactly the condition under which
`Save`'s read-current step cannot fail. -/
def readable (s : Store) (i : String) : Bool :=
  match s.getBucket (sandboxKey i) with
  | none => true
  | some b =>
    match retrieveSandboxFromDB b with
    | .ok _ => true
    | .error _ => false

/-- `Retrieve s i` succeeds with an actual record. -/
def retrieveOk (s : Store) (i : String) : Bool :=
  match Retrieve s i with
  | .ok (some _) => true
  | _ => false

/-- A predicate evaluation that did not error (matched or not). -/
def evalOk (r : Except Err Bool) : Bool :=
  match r with
  | .ok _ => true
  | .error _ => false

/-- The filter with every constraint unset. -/
def emptyFilter : PodSandboxFilter :=
  { id := "", state := none, labelSelector := [] }

end Virtlet

deriving instance DecidableEq for Except

namespace Virtlet

/-! ### Association-list lemmas for buckets and the store -/

theorem Bucket.get_put_self (b : Bucket) (k : List Char) (v : Data) :
    (b.put k v).get k = some v := by
  induction b with
  | nil => simp [Bucket.put, Bucket.get]
  | cons p b ih =>
    by_cases h : p.1 = k <;> simp [Bucket.put, Bucket.get, h, ih]

theorem Store.getBucket_append (s t : Store) (k : List Char) :
    (s ++ t).getBucket k =
      match s.getBucket k with
      | some b => some b
      | none => t.getBucket k := by
  induction s with
  | nil => simp [Store.getBucket]
  | cons p s ih =>
    by_cases h : p.1 = k <;> simp [Store.getBucket, h, ih]

theorem Store.getBucket_create_self (s : Store) (k : List Char) :
    (s.createBucketIfNotExists k).getBucket k =
      some ((s.getBucket k).getD []) := by
  unfold Store.createBucketIfNotExists
  cases h : s.getBucket k with
  | some b => simp [h]
  | none => simp [Store.getBucket_append, h, Store.getBucket]

theorem Store.getBucket_create_ne (s : Store) (k k' : List Char)
    (h : k' ≠ k) : (s.createBucketIfNotExists k).getBucket k' = s.getBucket k' := by
  unfold Store.createBucketIfNotExists
  cases hk : s.getBucket k with
  | some b => rfl
  | none =>
    rw [Store.getBucket_append]
    cases hk' : s.getBucket k' with
    | some b => rfl
    | none => simp [Store.getBucket, Ne.symm h]

theorem Store.getBucket_set_self (s : Store) (k : List Char) (b0 b : Bucket)
    (h : s.getBucket k = some b0) : (s.setBucket k b).getBucket k = some b := by
  induction s with
  | nil => simp [Store.getBucket] at h
  | cons p s ih =>
    by_cases hp : p.1 = k
    · simp [Store.getBucket, Store.setBucket, hp]
    · simp [Store.getBucket, hp] at h
      simp [Store.getBucket, Store.setBucket, hp, ih h]

theorem Store.getBucket_set_ne (s : Store) (k k' : List Char) (b : Bucket)
    (h : k' ≠ k) : (s.setBucket k b).getBucket k' = s.getBucket k' := by
  induction s with
  | nil => simp [Store.setBucket]
  | cons p s ih =>
    by_cases hp : p.1 = k
    · simp [Store.setBucket, Store.getBucket, hp, Ne.symm h, ih]
    · by_cases hp' : p.1 = k' <;>
        simp [Store.setBucket, Store.getBucket, hp, hp', h, ih]

theorem getBucket_erase_self (s : Store) (k : List Char) :
    (eraseKey s k).getBucket k = none := by
  induction s with
  | nil => simp [eraseKey, Store.getBucket]
  | cons p s ih =>
    by_cases hp : p.1 = k <;> simp [eraseKey, Store.getBucket, hp, ih]

theorem getBucket_erase_ne (s : Store) (k k' : List Char) (h : k' ≠ k) :
    (eraseKey s k).getBucket k' = s.getBucket k' := by
  induction s with
  | nil => simp [eraseKey]
  | cons p s ih =>
    by_cases hp : p.1 = k
    · rw [eraseKey]
      simp only [hp, if_pos]
      rw [ih, Store.getBucket]
      simp [hp, Ne.symm h]
    · by_cases hp' : p.1 = k' <;> simp [eraseKey, Store.getBucket, hp, hp', h, ih]

theorem eraseKey_append (s t : Store) (k : List Char) :
    eraseKey (s ++ t) k = eraseKey s k ++ eraseKey t k := by
  induction s with
  | nil => simp [eraseKey]
  | cons p s ih =>
    by_cases hp : p.1 = k <;> simp [eraseKey, hp, ih]

theorem eraseKey_of_absent (s : Store) (k : List Char)
    (h : s.getBucket k = none) : eraseKey s k = s := by
  induction s with
  | nil => rfl
  | cons p s ih =>
    by_cases hp : p.1 = k
    · simp [Store.getBucket, hp] at h
    · simp [Store.getBucket, hp] at h
      simp [eraseKey, hp, ih h]

theorem getBucket_isSome_of_mem (s : Store) (k : List Char)
    (h : k ∈ s.map (·.1)) : (s.getBucket k).isSome := by
  induction s with
  | nil => simp at h
  | cons p s ih =>
    rw [List.map_cons, List.mem_cons] at h
    by_cases hp : p.1 = k
    · simp [Store.getBucket, hp]
    · rcases h with h | h
      · exact absurd h.symm hp
      · simpa [Store.getBucket, hp] using ih h

/-! ### Key lemmas -/

theorem sandboxKey_inj (x y : String) (h : sandboxKey x = sandboxKey y) :
    x = y := by
  unfold sandboxKey at h
  exact congrArg String.mk (List.append_cancel_left h)

theorem sandboxKey_strip (k : List Char) (h : hasSandboxKeyPfx k = true) :
    sandboxKey (stripSandboxKeyPfx k) = k := by
  unfold hasSandboxKeyPfx at h
  rw [decide_eq_true_eq] at h
  unfold sandboxKey stripSandboxKeyPfx
  show sandboxKeyPfx ++ k.drop sandboxKeyPfx.length = k
  nth_rewrite 1 [← h]
  exact List.take_append_drop _ k

theorem mem_insertKey (x k : List Char) (l : List (List Char)) :
    x ∈ insertKey k l ↔ x = k ∨ x ∈ l := by
  induction l with
  | nil => simp [insertKey]
  | cons y l ih =>
    by_cases h : keyLe k y
    · simp [insertKey, h]
    · simp [insertKey, h, ih]
      tauto

theorem mem_sortKeys (x : List Char) (l : List (List Char)) :
    x ∈ sortKeys l ↔ x ∈ l := by
  induction l with
  | nil => simp [sortKeys]
  | cons y l ih => simp [sortKeys, mem_insertKey, ih]

theorem mem_scanKeys (s : Store) (k : List Char) (h : k ∈ scanKeys s) :
    hasSandboxKeyPfx k = true ∧ (s.getBucket k).isSome := by
  unfold scanKeys at h
  rw [List.mem_filter, mem_sortKeys] at h
  exact ⟨h.2, getBucket_isSome_of_mem s k h.1⟩

/-! ### Characterizations of `Retrieve` and `Save` -/

theorem getSandboxBucket_create (s : Store) (i : String) :
    getSandboxBucket s i true false =
      .ok (some ((s.getBucket (sandboxKey i)).getD []),
        s.createBucketIfNotExists (sandboxKey i)) := by
  unfold getSandboxBucket
  simp [Store.getBucket_create_self]

theorem retrieve_eq (s : Store) (i : String) (hi : i ≠ "") :
    Retrieve s i =
      match s.getBucket (sandboxKey i) with
      | none => .error (.notFound i)
      | some bucket =>
        match retrieveSandboxFromDB bucket with
        | .error e => .error e
        | .ok none => .ok none
        | .ok (some psi) => .ok (some { psi with podID := i }) := by
  unfold Retrieve getSandboxBucket
  rw [if_neg hi]
  cases hb : Store.getBucket s (sandboxKey i) <;> simp [hb]

theorem retrieve_congr (s s' : Store) (y : String)
    (h : s.getBucket (sandboxKey y) = s'.getBucket (sandboxKey y)) :
    Retrieve s y = Retrieve s' y := by
  by_cases hy : y = ""
  · subst hy; simp [Retrieve]
  · rw [retrieve_eq s y hy, retrieve_eq s' y hy, h]

theorem readable_retrieves (s : Store) (i : String) (hr : readable s i = true) :
    ∃ cur, retrieveSandboxFromDB ((s.getBucket (sandboxKey i)).getD []) = .ok cur := by
  unfold readable at hr
  cases hb : s.getBucket (sandboxKey i) with
  | none =>
    exact ⟨none, by simp [retrieveSandboxFromDB, Bucket.get]⟩
  | some b =>
    cases hrb : retrieveSandboxFromDB b with
    | ok c => exact ⟨c, by simp [hrb]⟩
    | error e => rw [hb] at hr; simp [hrb] at hr

theorem save_put (s : Store) (i : String) (R : PodSandboxInfo)
    (u : Option PodSandboxInfo → Option PodSandboxInfo × Option Err)
    (hi : i ≠ "") (hr : readable s i = true)
    (hu : ∀ cur, u cur = (some R, none)) :
    Save s i u =
      ((s.createBucketIfNotExists (sandboxKey i)).setBucket (sandboxKey i)
        (saveSandboxToDB ((s.getBucket (sandboxKey i)).getD []) R), none) := by
  obtain ⟨cur, hcur⟩ := readable_retrieves s i hr
  unfold Save
  rw [if_neg hi]
  simp only [getSandboxBucket_create, hcur, hu]

theorem save_updater_err (s : Store) (i : String) (e : Err)
    (u : Option PodSandboxInfo → Option PodSandboxInfo × Option Err)
    (hi : i ≠ "") (hr : readable s i = true)
    (hu : ∀ cur, (u cur).2 = some e) :
    Save s i u = (s, some e) := by
  obtain ⟨cur, hcur⟩ := readable_retrieves s i hr
  have h2 := hu cur
  unfold Save
  rw [if_neg hi]
  cases huc : u cur with
  | mk nd oe =>
    rw [huc] at h2
    simp only at h2
    subst h2
    simp only [getSandboxBucket_create, hcur, huc]

theorem save_delete_existing (s : Store) (i : String) (b : Bucket)
    (u : Option PodSandboxInfo → Option PodSandboxInfo × Option Err)
    (hi : i ≠ "") (hb : s.getBucket (sandboxKey i) = some b)
    (hrb : ∃ cur, retrieveSandboxFromDB b = .ok cur)
    (hu : ∀ cur, u cur = (none, none)) :
    Save s i u = (eraseKey s (sandboxKey i), none) := by
  obtain ⟨cur, hcur⟩ := hrb
  have hcreate : s.createBucketIfNotExists (sandboxKey i) = s := by
    unfold Store.createBucketIfNotExists
    rw [hb]
  unfold Save
  rw [if_neg hi]
  simp only [getSandboxBucket_create, hcreate, hb, Option.getD_some, hcur, hu,
    Store.deleteBucket]

theorem save_delete_absent (s : Store) (i : String)
    (u : Option PodSandboxInfo → Option PodSandboxInfo × Option Err)
    (hi : i ≠ "") (hb : s.getBucket (sandboxKey i) = none)
    (hu : ∀ cur, u cur = (none, none)) :
    Save s i u = (s, none) := by
  have hdel : (s ++ [(sandboxKey i, [])]).deleteBucket (sandboxKey i)
      = .ok (eraseKey (s ++ [(sandboxKey i, [])]) (sandboxKey i)) := by
    unfold Store.deleteBucket
    rw [Store.getBucket_append, hb]
    simp [Store.getBucket]
  have herase : eraseKey (s ++ [(sandboxKey i, [])]) (sandboxKey i) = s := by
    rw [eraseKey_append, eraseKey_of_absent s _ hb]
    simp [eraseKey]
  unfold Save
  rw [if_neg hi]
  simp only [getSandboxBucket_create, hb, Option.getD_none, Store.createBucketIfNotExists]
  simp only [retrieveSandboxFromDB, Bucket.get, hu, hdel, herase]

theorem save_frame (s : Store) (x : String)
    (u : Option PodSandboxInfo → Option PodSandboxInfo × Option Err)
    (k' : List Char) (hk : k' ≠ sandboxKey x) :
    ((Save s x u).1).getBucket k' = s.getBucket k' := by
  by_cases hx : x = ""
  · subst hx; simp [Save]
  unfold Save
  rw [if_neg hx, getSandboxBucket_create]
  cases hrb : retrieveSandboxFromDB ((s.getBucket (sandboxKey x)).getD []) with
  | error e => simp [hrb]
  | ok cur =>
    simp only [hrb]
    cases huc : u cur with
    | mk nd oe =>
      cases oe with
      | some e => simp [huc]
      | none =>
        cases nd with
        | none =>
          simp only [huc, Store.deleteBucket, Store.getBucket_create_self]
          simp [getBucket_erase_ne _ _ _ hk, Store.getBucket_create_ne _ _ _ hk]
        | some nd =>
          simp only [huc]
          simp [Store.getBucket_set_ne _ _ _ _ hk, Store.getBucket_create_ne _ _ _ hk]

/-! ### Scan lemmas -/

theorem listScan_all_true (s : Store) (filter : Option PodSandboxFilter)
    (ks : List (List Char))
    (h : ∀ k ∈ ks, filterPodSandboxMeta s (stripSandboxKeyPfx k) filter = .ok true) :
    listScan s filter ks = .ok (ks.map stripSandboxKeyPfx) := by
  induction ks with
  | nil => rfl
  | cons k ks ih =>
    have hk := h k (List.mem_cons_self k ks)
    have ihh := ih fun k' hk' => h k' (List.mem_cons_of_mem _ hk')
    simp [listScan, hk, ihh]

theorem listScan_all_false (s : Store) (filter : Option PodSandboxFilter)
    (ks : List (List Char))
    (h : ∀ k ∈ ks, filterPodSandboxMeta s (stripSandboxKeyPfx k) filter = .ok false) :
    listScan s filter ks = .ok [] := by
  induction ks with
  | nil => rfl
  | cons k ks ih =>
    have hk := h k (List.mem_cons_self k ks)
    have ihh := ih fun k' hk' => h k' (List.mem_cons_of_mem _ hk')
    simp [listScan, hk, ihh]

theorem listScan_first_err (s : Store) (filter : Option PodSandboxFilter)
    (done : List (List Char)) (k : List Char) (rest : List (List Char)) (e : Err)
    (hok : ∀ k' ∈ done, evalOk (filterPodSandboxMeta s (stripSandboxKeyPfx k') filter) = true)
    (herr : filterPodSandboxMeta s (stripSandboxKeyPfx k) filter = .error e) :
    listScan s filter (done ++ k :: rest) = .error e := by
  induction done with
  | nil => simp [listScan, herr]
  | cons d done ih =>
    have hd := hok d (List.mem_cons_self d done)
    have ihh := ih fun k' h => hok k' (List.mem_cons_of_mem _ h)
    cases hfd : filterPodSandboxMeta s (stripSandboxKeyPfx d) filter with
    | error e' => rw [hfd] at hd; simp [evalOk] at hd
    | ok b => cases b <;> simp [listScan, hfd, ihh]

theorem filter_emptyFilter_true (s : Store) (id : String)
    (h : retrieveOk s id = true) :
    filterPodSandboxMeta s id (some emptyFilter) = .ok true := by
  unfold retrieveOk at h
  cases hr : Retrieve s id with
  | error e => rw [hr] at h; simp at h
  | ok o =>
    cases o with
    | none => rw [hr] at h; simp at h
    | some psi =>
      simp only [filterPodSandboxMeta, emptyFilter]
      rw [if_neg (by simp)]
      rw [hr]
      simp [selectorMatches]

/-! ### The claims -/

/-- C1: Round trip — for every non-empty bound ID `i`, any store in which the
current payload for `i` is decodable, and every record `R`, a `Save` whose
updater returns `(R, nil)` succeeds, and an immediately following `Retrieve`
on the same accessor returns a record equal to `R` except for the
agent-assigned `podID` field, which equals the bound ID `i` (stamped from the
accessor, not taken from the stored payload). -/
theorem c1_round_trip (s : Store) (i : String) (R : PodSandboxInfo)
    (u : Option PodSandboxInfo → Option PodSandboxInfo × Option Err)
    (hi : i ≠ "") (hr : readable s i = true)
    (hu : ∀ cur, u cur = (some R, none)) :
    (Save s i u).2 = none ∧
    Retrieve (Save s i u).1 i = .ok (some { R with podID := i }) := by
  rw [save_put s i R u hi hr hu]
  refine ⟨rfl, ?_⟩
  rw [retrieve_eq _ _ hi]
  have hbset := Store.getBucket_set_self (s.createBucketIfNotExists (sandboxKey i))
    (sandboxKey i) ((s.getBucket (sandboxKey i)).getD [])
    (saveSandboxToDB ((s.getBucket (sandboxKey i)).getD []) R)
    (Store.getBucket_create_self s (sandboxKey i))
  rw [hbset]
  simp [saveSandboxToDB, retrieveSandboxFromDB, Bucket.get_put_self, jsonMarshal,
    jsonUnmarshal]

/-- Witness for C1: round trip of a concrete record through the empty store. -/
theorem c1_round_trip_witness :
    ("a" : String) ≠ "" ∧
    readable ([] : Store) "a" = true ∧
    (∀ cur : Option PodSandboxInfo,
      (fun _ : Option PodSandboxInfo =>
          (some (⟨"", PodSandboxState.ready, ⟨[("env", "p")], 0⟩, 5⟩ : PodSandboxInfo),
            (none : Option Err))) cur =
        (some (⟨"", PodSandboxState.ready, ⟨[("env", "p")], 0⟩, 5⟩ : PodSandboxInfo), none)) ∧
    ((Save ([] : Store) "a" (fun _ =>
        (some (⟨"", PodSandboxState.ready, ⟨[("env", "p")], 0⟩, 5⟩ : PodSandboxInfo), none))).2
          = none ∧
      Retrieve (Save ([] : Store) "a" (fun _ =>
        (some (⟨"", PodSandboxState.ready, ⟨[("env", "p")], 0⟩, 5⟩ : PodSandboxInfo), none))).1 "a"
          = .ok (some { (⟨"", PodSandboxState.ready, ⟨[("env", "p")], 0⟩, 5⟩ :
              PodSandboxInfo) with podID := "a" })) :=
  ⟨by decide, by decide, fun _ => rfl,
    c1_round_trip ([] : Store) "a"
      ⟨"", PodSandboxState.ready, ⟨[("env", "p")], 0⟩, 5⟩
      (fun _ => (some ⟨"", PodSandboxState.ready, ⟨[("env", "p")], 0⟩, 5⟩, none))
      (by decide) (by decide) (fun _ => rfl)⟩

/-- The store is unchanged by any `Save` whose updater always errors:
whatever error path the transaction body takes, the rollback restores the
pre-transaction store. -/
theorem save_err_fst (s : Store) (i : String) (e : Err)
    (u : Option PodSandboxInfo → Option PodSandboxInfo × Option Err)
    (hu : ∀ cur, (u cur).2 = some e) :
    (Save s i u).1 = s := by
  by_cases hi : i = ""
  · subst hi; simp [Save]
  unfold Save
  rw [if_neg hi, getSandboxBucket_create]
  cases hrb : retrieveSandboxFromDB ((s.getBucket (sandboxKey i)).getD []) with
  | error e' => simp [hrb]
  | ok cur =>
    have h2 := hu cur
    cases huc : u cur with
    | mk nd oe =>
      rw [huc] at h2
      simp only at h2
      subst h2
      simp [hrb, huc]

/-- C2: Updater-error atomicity — for every non-empty ID `i` and every
updater that returns error `e`, the store after `Save` is identical to the
store before it (the region created in step 1 is rolled back, no partial
write is visible); and whenever the updater is actually reached (the
current payload decodes), `Save` returns exactly `e` unchanged with the
untouched store. -/
theorem c2_updater_error (s : Store) (i : String) (e : Err)
    (u : Option PodSandboxInfo → Option PodSandboxInfo × Option Err)
    (hi : i ≠ "") (hu : ∀ cur, (u cur).2 = some e) :
    (Save s i u).1 = s ∧
    (readable s i = true → Save s i u = (s, some e)) :=
  ⟨save_err_fst s i e u hu, fun hr => save_updater_err s i e u hi hr hu⟩

/-- Witness for C2: a failing updater on the empty store leaves no region
behind and surfaces its own error. -/
theorem c2_updater_error_witness :
    ("a" : String) ≠ "" ∧
    (∀ cur : Option PodSandboxInfo,
      ((fun _ : Option PodSandboxInfo =>
          ((none : Option PodSandboxInfo), some (Err.userErr 7))) cur).2 =
        some (Err.userErr 7)) ∧
    ((Save ([] : Store) "a" (fun _ => (none, some (Err.userErr 7)))).1 = [] ∧
      (readable ([] : Store) "a" = true →
        Save ([] : Store) "a" (fun _ => (none, some (Err.userErr 7))) =
          ([], some (Err.userErr 7)))) :=
  ⟨by decide, fun _ => rfl,
    c2_updater_error ([] : Store) "a" (Err.userErr 7)
      (fun _ => (none, some (Err.userErr 7))) (by decide) (fun _ => rfl)⟩

/-- C3: Delete via updater — on a non-empty ID whose region exists and
holds a stored record, `Save` with an updater returning `(nil, nil)`
succeeds, deletes the entire isolated region (not merely the payload slot),
and a subsequent `Retrieve` on the same accessor fails with NotFound. -/
theorem c3_delete_via_updater (s : Store) (i : String) (b : Bucket)
    (r : PodSandboxInfo)
    (u : Option PodSandboxInfo → Option PodSandboxInfo × Option Err)
    (hi : i ≠ "") (hb : s.getBucket (sandboxKey i) = some b)
    (hrb : retrieveSandboxFromDB b = .ok (some r))
    (hu : ∀ cur, u cur = (none, none)) :
    (Save s i u).2 = none ∧
    ((Save s i u).1).getBucket (sandboxKey i) = none ∧
    Retrieve (Save s i u).1 i = .error (.notFound i) := by
  rw [save_delete_existing s i b u hi hb ⟨some r, hrb⟩ hu]
  refine ⟨rfl, getBucket_erase_self s _, ?_⟩
  rw [retrieve_eq _ _ hi, getBucket_erase_self]

/-- Witness for C3: deleting a concrete stored record removes its region
and makes `Retrieve` fail with NotFound. -/
theorem c3_delete_via_updater_witness :
    ("a" : String) ≠ "" ∧
    (Store.getBucket
        [(sandboxKey "a",
          [(sandboxDataBucket,
            Data.enc ⟨"", PodSandboxState.ready, ⟨[("env", "p")], 0⟩, 5⟩)])]
        (sandboxKey "a") =
      some [(sandboxDataBucket,
        Data.enc ⟨"", PodSandboxState.ready, ⟨[("env", "p")], 0⟩, 5⟩)]) ∧
    (retrieveSandboxFromDB
        [(sandboxDataBucket,
          Data.enc ⟨"", PodSandboxState.ready, ⟨[("env", "p")], 0⟩, 5⟩)] =
      .ok (some ⟨"", PodSandboxState.ready, ⟨[("env", "p")], 0⟩, 5⟩)) ∧
    ((Save
        [(sandboxKey "a",
          [(sandboxDataBucket,
            Data.enc ⟨"", PodSandboxState.ready, ⟨[("env", "p")], 0⟩, 5⟩)])]
        "a" (fun _ => (none, none))).2 = none ∧
      ((Save
          [(sandboxKey "a",
            [(sandboxDataBucket,
              Data.enc ⟨"", PodSandboxState.ready, ⟨[("env", "p")], 0⟩, 5⟩)])]
          "a" (fun _ => (none, none))).1).getBucket (sandboxKey "a") = none ∧
      Retrieve (Save
          [(sandboxKey "a",
            [(sandboxDataBucket,
              Data.enc ⟨"", PodSandboxState.ready, ⟨[("env", "p")], 0⟩, 5⟩)])]
          "a" (fun _ => (none, none))).1 "a" = .error (.notFound "a")) :=
  ⟨by decide, by decide, by decide,
    c3_delete_via_updater
      [(sandboxKey "a",
        [(sandboxDataBucket,
          Data.enc ⟨"", PodSandboxState.ready, ⟨[("env", "p")], 0⟩, 5⟩)])]
      "a"
      [(sandboxDataBucket,
        Data.enc ⟨"", PodSandboxState.ready, ⟨[("env", "p")], 0⟩, 5⟩)]
      ⟨"", PodSandboxState.ready, ⟨[("env", "p")], 0⟩, 5⟩
      (fun _ => (none, none))
      (by decide) (by decide) (by decide) (fun _ => rfl)⟩

/-- C4: Idempotent delete — `Save` with an updater returning `(nil, nil)`
on a non-empty ID with no existing region succeeds and returns the store
exactly as it was (no region for `i` is left behind: the region created in
step 1 is deleted again before commit), and repeating the call yields the
same outcome. -/
theorem c4_idempotent_delete (s : Store) (i : String)
    (u : Option PodSandboxInfo → Option PodSandboxInfo × Option Err)
    (hi : i ≠ "") (hb : s.getBucket (sandboxKey i) = none)
    (hu : ∀ cur, u cur = (none, none)) :
    Save s i u = (s, none) ∧ Save (Save s i u).1 i u = (s, none) := by
  have h := save_delete_absent s i u hi hb hu
  exact ⟨h, by rw [h]; exact h⟩

/-- Witness for C4: delete-if-absent on the empty store is a no-op twice
over. -/
theorem c4_idempotent_delete_witness :
    ("a" : String) ≠ "" ∧
    Store.getBucket ([] : Store) (sandboxKey "a") = none ∧
    (Save ([] : Store) "a" (fun _ => (none, none)) = ([], none) ∧
      Save (Save ([] : Store) "a" (fun _ => (none, none))).1 "a"
        (fun _ => (none, none)) = ([], none)) :=
  ⟨by decide, by decide,
    c4_idempotent_delete ([] : Store) "a" (fun _ => (none, none))
      (by decide) (by decide) (fun _ => rfl)⟩

/-- C5: Retrieve absence taxonomy — for every non-empty ID, an absent
region makes `Retrieve` fail with NotFound, while an existing region whose
payload slot is absent makes `Retrieve` return no record and no error. -/
theorem c5_absence_taxonomy (s : Store) (i : String) (hi : i ≠ "") :
    (s.getBucket (sandboxKey i) = none → Retrieve s i = .error (.notFound i)) ∧
    (∀ b, s.getBucket (sandboxKey i) = some b →
      b.get sandboxDataBucket = none → Retrieve s i = .ok none) := by
  constructor
  · intro hb
    rw [retrieve_eq _ _ hi, hb]
  · intro b hb hslot
    rw [retrieve_eq _ _ hi, hb]
    simp [retrieveSandboxFromDB, hslot]

/-- Witness for C5: a store holding one empty region for `"a"` exhibits
NotFound for the absent region `"b"` and the soft no-data outcome for
`"a"`. -/
theorem c5_absence_taxonomy_witness :
    (("b" : String) ≠ "" ∧
      (Store.getBucket [(sandboxKey "a", ([] : Bucket))] (sandboxKey "b") = none →
        Retrieve [(sandboxKey "a", ([] : Bucket))] "b" = .error (.notFound "b"))) ∧
    (("a" : String) ≠ "" ∧
      (∀ b, Store.getBucket [(sandboxKey "a", ([] : Bucket))] (sandboxKey "a") = some b →
        b.get sandboxDataBucket = none →
        Retrieve [(sandboxKey "a", ([] : Bucket))] "a" = .ok none)) :=
  ⟨⟨by decide, (c5_absence_taxonomy [(sandboxKey "a", ([] : Bucket))] "b" (by decide)).1⟩,
    ⟨by decide, (c5_absence_taxonomy [(sandboxKey "a", ([] : Bucket))] "a" (by decide)).2⟩⟩

/-- C6: Empty-ID rejection — on the accessor bound to `""`, `Retrieve` and
`Save` both fail with the InvalidArgument error before touching the store:
the store is returned unchanged and the result is the same for every
updater, so the caller-supplied updater is never invoked. -/
theorem c6_empty_id (s : Store)
    (u : Option PodSandboxInfo → Option PodSandboxInfo × Option Err) :
    Retrieve s "" = .error .emptyID ∧ Save s "" u = (s, some .emptyID) := by
  constructor <;> simp [Retrieve, Save]

/-- C7: Nil/empty filter matches everything — the predicate with a nil
filter matches every accessor without a read, and, on a store whose
scanned entries all hold retrievable records, `ListPodSandboxes` with a
nil filter or with the filter whose ID, state and label-selector
constraints are all unset returns every stored sandbox without error. -/
theorem c7_nil_empty_filter (s : Store)
    (h : ∀ k ∈ scanKeys s, retrieveOk s (stripSandboxKeyPfx k) = true) :
    (∀ i, filterPodSandboxMeta s i none = .ok true) ∧
    ListPodSandboxes s none = .ok (sandboxIDs s) ∧
    ListPodSandboxes s (some emptyFilter) = .ok (sandboxIDs s) := by
  refine ⟨fun i => rfl, ?_, ?_⟩
  · exact listScan_all_true s none _ (fun k _ => rfl)
  · exact listScan_all_true s (some emptyFilter) _
      (fun k hk => filter_emptyFilter_true s _ (h k hk))

/-- Witness for C7: both the nil filter and the all-unset filter list the
two sandboxes of a concrete store. -/
theorem c7_nil_empty_filter_witness :
    (∀ k ∈ scanKeys
        [(sandboxKey "a",
          [(sandboxDataBucket,
            Data.enc ⟨"", PodSandboxState.ready, ⟨[("env", "p")], 0⟩, 5⟩)]),
         (sandboxKey "b",
          [(sandboxDataBucket,
            Data.enc ⟨"", PodSandboxState.notReady, ⟨[], 1⟩, 6⟩)])],
      retrieveOk
        [(sandboxKey "a",
          [(sandboxDataBucket,
            Data.enc ⟨"", PodSandboxState.ready, ⟨[("env", "p")], 0⟩, 5⟩)]),
         (sandboxKey "b",
          [(sandboxDataBucket,
            Data.enc ⟨"", PodSandboxState.notReady, ⟨[], 1⟩, 6⟩)])]
        (stripSandboxKeyPfx k) = true) ∧
    ((∀ i, filterPodSandboxMeta
        [(sandboxKey "a",
          [(sandboxDataBucket,
            Data.enc ⟨"", PodSandboxState.ready, ⟨[("env", "p")], 0⟩, 5⟩)]),
         (sandboxKey "b",
          [(sandboxDataBucket,
            Data.enc ⟨"", PodSandboxState.notReady, ⟨[], 1⟩, 6⟩)])]
        i none = .ok true) ∧
      ListPodSandboxes
        [(sandboxKey "a",
          [(sandboxDataBucket,
            Data.enc ⟨"", PodSandboxState.ready, ⟨[("env", "p")], 0⟩, 5⟩)]),
         (sandboxKey "b",
          [(sandboxDataBucket,
            Data.enc ⟨"", PodSandboxState.notReady, ⟨[], 1⟩, 6⟩)])]
        none = .ok (sandboxIDs
          [(sandboxKey "a",
            [(sandboxDataBucket,
              Data.enc ⟨"", PodSandboxState.ready, ⟨[("env", "p")], 0⟩, 5⟩)]),
           (sandboxKey "b",
            [(sandboxDataBucket,
              Data.enc ⟨"", PodSandboxState.notReady, ⟨[], 1⟩, 6⟩)])]) ∧
      ListPodSandboxes
        [(sandboxKey "a",
          [(sandboxDataBucket,
            Data.enc ⟨"", PodSandboxState.ready, ⟨[("env", "p")], 0⟩, 5⟩)]),
         (sandboxKey "b",
          [(sandboxDataBucket,
            Data.enc ⟨"", PodSandboxState.notReady, ⟨[], 1⟩, 6⟩)])]
        (some emptyFilter) = .ok (sandboxIDs
          [(sandboxKey "a",
            [(sandboxDataBucket,
              Data.enc ⟨"", PodSandboxState.ready, ⟨[("env", "p")], 0⟩, 5⟩)]),
           (sandboxKey "b",
            [(sandboxDataBucket,
              Data.enc ⟨"", PodSandboxState.notReady, ⟨[], 1⟩, 6⟩)])])) :=
  ⟨by decide,
    c7_nil_empty_filter
      [(sandboxKey "a",
        [(sandboxDataBucket,
          Data.enc ⟨"", PodSandboxState.ready, ⟨[("env", "p")], 0⟩, 5⟩)]),
       (sandboxKey "b",
        [(sandboxDataBucket,
          Data.enc ⟨"", PodSandboxState.notReady, ⟨[], 1⟩, 6⟩)])]
      (by decide)⟩

/-- C8: ID short-circuit — when no region for ID `"zzz"` exists,
`ListPodSandboxes` with a filter whose ID constraint is `"zzz"` returns an
empty collection and no error, for every store (in particular one whose
other payloads are all corrupt: no payload is read or decoded). -/
theorem c8_id_shortcircuit (s : Store) (st : Option PodSandboxState)
    (L : List (String × String))
    (h : s.getBucket (sandboxKey "zzz") = none) :
    ListPodSandboxes s (some { id := "zzz", state := st, labelSelector := L }) =
      .ok [] := by
  unfold ListPodSandboxes
  apply listScan_all_false
  intro k hk
  obtain ⟨hpfx, hsome⟩ := mem_scanKeys s k hk
  have hne : stripSandboxKeyPfx k ≠ "zzz" := by
    intro he
    have hkey := sandboxKey_strip k hpfx
    rw [he] at hkey
    rw [← hkey, h] at hsome
    simp at hsome
  have hzzz : ("zzz" : String) ≠ "" := by decide
  simp only [filterPodSandboxMeta]
  rw [if_pos ⟨hzzz, hne⟩]

/-- Witness for C8: listing with an unmatched ID succeeds on a store whose
only stored payload is corrupt. -/
theorem c8_id_shortcircuit_witness :
    Store.getBucket [(sandboxKey "a", [(sandboxDataBucket, Data.corrupt 0)])]
      (sandboxKey "zzz") = none ∧
    ListPodSandboxes [(sandboxKey "a", [(sandboxDataBucket, Data.corrupt 0)])]
      (some { id := "zzz", state := none, labelSelector := [] }) = .ok [] :=
  ⟨by decide,
    c8_id_shortcircuit [(sandboxKey "a", [(sandboxDataBucket, Data.corrupt 0)])]
      none [] (by decide)⟩

/-- C9: Scan aborts on first error — whenever the predicate evaluation
errors on a scanned key (e.g. an existing region with an empty payload
slot, or an undecodable payload) after evaluating cleanly on all earlier
keys, `ListPodSandboxes` returns that first error and no collection,
never a partial list. -/
theorem c9_scan_abort (s : Store) (filter : Option PodSandboxFilter)
    (done : List (List Char)) (k : List Char) (rest : List (List Char)) (e : Err)
    (hsplit : scanKeys s = done ++ k :: rest)
    (hok : ∀ k' ∈ done,
      evalOk (filterPodSandboxMeta s (stripSandboxKeyPfx k') filter) = true)
    (herr : filterPodSandboxMeta s (stripSandboxKeyPfx k) filter = .error e) :
    ListPodSandboxes s filter = .error e := by
  unfold ListPodSandboxes
  rw [hsplit]
  exact listScan_first_err s filter done k rest e hok herr

/-- Witness for C9: the first region lists cleanly, the second has an
empty payload slot, and the whole scan returns the data-inconsistency
error with no partial result. -/
theorem c9_scan_abort_witness :
    scanKeys
        [(sandboxKey "a",
          [(sandboxDataBucket,
            Data.enc ⟨"", PodSandboxState.ready, ⟨[("env", "p")], 0⟩, 5⟩)]),
         (sandboxKey "b", ([] : Bucket))] =
      [sandboxKey "a"] ++ sandboxKey "b" :: [] ∧
    (∀ k' ∈ [sandboxKey "a"],
      evalOk (filterPodSandboxMeta
        [(sandboxKey "a",
          [(sandboxDataBucket,
            Data.enc ⟨"", PodSandboxState.ready, ⟨[("env", "p")], 0⟩, 5⟩)]),
         (sandboxKey "b", ([] : Bucket))]
        (stripSandboxKeyPfx k') (some emptyFilter)) = true) ∧
    filterPodSandboxMeta
        [(sandboxKey "a",
          [(sandboxDataBucket,
            Data.enc ⟨"", PodSandboxState.ready, ⟨[("env", "p")], 0⟩, 5⟩)]),
         (sandboxKey "b", ([] : Bucket))]
        (stripSandboxKeyPfx (sandboxKey "b")) (some emptyFilter) =
      .error (.noData "b") ∧
    ListPodSandboxes
        [(sandboxKey "a",
          [(sandboxDataBucket,
            Data.enc ⟨"", PodSandboxState.ready, ⟨[("env", "p")], 0⟩, 5⟩)]),
         (sandboxKey "b", ([] : Bucket))]
        (some emptyFilter) = .error (.noData "b") :=
  ⟨by decide, by decide, by decide,
    c9_scan_abort
      [(sandboxKey "a",
        [(sandboxDataBucket,
          Data.enc ⟨"", PodSandboxState.ready, ⟨[("env", "p")], 0⟩, 5⟩)]),
       (sandboxKey "b", ([] : Bucket))]
      (some emptyFilter) [sandboxKey "a"] (sandboxKey "b") [] (.noData "b")
      (by decide) (by decide) (by decide)⟩

/-- C10: Per-record frame effect — for distinct non-empty IDs `x` and `y`,
any `Save` through the accessor for `x` (create, update, delete, or a
rolled-back failure) leaves the region of `y` untouched, so `Retrieve` on
`y` returns the same outcome before and after. -/
theorem c10_frame (s : Store) (x y : String)
    (u : Option PodSandboxInfo → Option PodSandboxInfo × Option Err)
    (hx : x ≠ "") (hy : y ≠ "") (hxy : x ≠ y) :
    ((Save s x u).1).getBucket (sandboxKey y) = s.getBucket (sandboxKey y) ∧
    Retrieve (Save s x u).1 y = Retrieve s y := by
  have hk : sandboxKey y ≠ sandboxKey x := by
    intro h
    exact hxy (sandboxKey_inj y x h).symm
  have h1 := save_frame s x u (sandboxKey y) hk
  exact ⟨h1, retrieve_congr _ _ y h1⟩

/-- Witness for C10: creating `"a"` leaves the stored record of `"b"` and
its `Retrieve` outcome unchanged. -/
theorem c10_frame_witness :
    ("a" : String) ≠ "" ∧ ("b" : String) ≠ "" ∧ ("a" : String) ≠ "b" ∧
    (((Save
        [(sandboxKey "b",
          [(sandboxDataBucket,
            Data.enc ⟨"", PodSandboxState.ready, ⟨[("env", "p")], 0⟩, 5⟩)])]
        "a" (fun _ =>
          (some ⟨"", PodSandboxState.notReady, ⟨[], 1⟩, 6⟩, none))).1).getBucket
        (sandboxKey "b") =
      Store.getBucket
        [(sandboxKey "b",
          [(sandboxDataBucket,
            Data.enc ⟨"", PodSandboxState.ready, ⟨[("env", "p")], 0⟩, 5⟩)])]
        (sandboxKey "b") ∧
      Retrieve (Save
        [(sandboxKey "b",
          [(sandboxDataBucket,
            Data.enc ⟨"", PodSandboxState.ready, ⟨[("env", "p")], 0⟩, 5⟩)])]
        "a" (fun _ =>
          (some ⟨"", PodSandboxState.notReady, ⟨[], 1⟩, 6⟩, none))).1 "b" =
      Retrieve
        [(sandboxKey "b",
          [(sandboxDataBucket,
            Data.enc ⟨"", PodSandboxState.ready, ⟨[("env", "p")], 0⟩, 5⟩)])]
        "b") :=
  ⟨by decide, by decide, by decide,
    c10_frame
      [(sandboxKey "b",
        [(sandboxDataBucket,
          Data.enc ⟨"", PodSandboxState.ready, ⟨[("env", "p")], 0⟩, 5⟩)])]
      "a" "b"
      (fun _ => (some ⟨"", PodSandboxState.notReady, ⟨[], 1⟩, 6⟩, none))
      (by decide) (by decide) (by decide)⟩

end Virtlet
